import Mathlib

/-!
Verification of the data-validation configuration and comparison engine.

The definitions below embed the repository's query-builder module
(`data_validation/query_builder/query_builder.py`) and its CLI config
assembly (`data_validation/__main__.py`) as pure Lean functions.  Parts of
the engine whose source is referenced but not present in this tree (the
`ConfigManager` class, the `consts` module and the result reconciler) are
modelled from the specification; each such definition carries a doc
comment starting with `Modelled from the spec:`.
-/

namespace DataValidation

/-- Association-list lookup: first binding wins, mirroring a Python
dictionary access done on a list of pairs. -/
def alookup {κ α : Type} [DecidableEq κ] : List (κ × α) → κ → Option α
  | [], _ => none
  | (k, v) :: rest, key => if k = key then some v else alookup rest key

/-- Python truthiness of an optional string: `None` and `""` are falsy. -/
def strTruthy : Option String → Bool
  | none => false
  | some s => s ≠ ""

/-- Python truthiness of an optional integer: `None` and `0` are falsy. -/
def intTruthy : Option Int → Bool
  | none => false
  | some n => n ≠ 0

/-- Ibis column datatypes as far as the query builder inspects them: the
code only ever tests `isinstance(ty, ibis.expr.datatypes.Timestamp)`. -/
inductive ColType where
  | Timestamp
  | Date
  | Int64
  | Float64
  | Str
  | Other (name : String)
deriving DecidableEq, Repr

/-- The aggregate operations selected by the `AggregateField` static
constructors (each wraps one ibis column-expression method). -/
inductive AggOp where
  | countOp
  | minOp
  | maxOp
  | avgOp
  | sumOp
deriving DecidableEq, Repr

/-- Comparison operators a `FilterField` can carry; `none` in the field
itself represents a custom raw-SQL filter. -/
inductive CmpOp where
  | gt
  | lt
  | eq
deriving DecidableEq, Repr

/-- Literal operand values for filters. -/
inductive LitVal where
  | intV (i : Int)
  | strV (s : String)
  | boolV (b : Bool)
deriving DecidableEq, Repr

/-- Backend-neutral ibis expressions as built by the query builder:
column references, casts, aliasing via `.name`, aggregates over a column
or over the whole table, comparisons, literals and raw SQL. -/
inductive IbisExpr where
  | column (name : String)
  | castE (e : IbisExpr) (ty : String)
  | named (e : IbisExpr) (aliasName : String)
  | aggE (op : AggOp) (e : IbisExpr)
  | aggTable (op : AggOp)
  | cmp (op : CmpOp) (l r : IbisExpr)
  | lit (v : LitVal)
  | noneLit
  | rawSQL (s : String)
deriving DecidableEq, Repr

/-- The innermost cast applied on an expression, looking through the
final aliasing step (`.name`) the query builder appends. -/
def appliedCast : IbisExpr → Option String
  | .named e _ => appliedCast e
  | .castE _ c => some c
  | _ => none

/-- A live table as the query builder sees it: a name together with its
column catalog (column name and ibis datatype). -/
structure IbisTable where
  tname : String
  columns : List (String × ColType)
deriving DecidableEq, Repr

/-- A backend client reduced to its `table(table_name, database=schema)`
capability. -/
def DataClient : Type := String → String → IbisTable

/-- Embeds `AggregateField` from `query_builder.py`: an aggregate
operation, an optional field to act on (absent for table-level
aggregates) and an optional output alias. -/
structure AggregateField where
  op : AggOp
  field_name : Option String
  aliasName : Option String
deriving DecidableEq, Repr

/-- The `AggregateField.count` static constructor. -/
def AggregateField.count (field_name aliasName : Option String) : AggregateField :=
  ⟨AggOp.countOp, field_name, aliasName⟩

/-- The `AggregateField.sum` static constructor. -/
def AggregateField.sum (field_name aliasName : Option String) : AggregateField :=
  ⟨AggOp.sumOp, field_name, aliasName⟩

/-- `AggregateField.compile`: apply the aggregate to the named column
(when a field name is truthy) or to the table, then attach the alias when
one is truthy.  Returns `none` when the referenced column is absent from
the table, where ibis would raise. -/
def AggregateField.compile (af : AggregateField) (ibis_table : IbisTable) : Option IbisExpr :=
  let agg_base : Option IbisExpr :=
    if strTruthy af.field_name then
      match alookup ibis_table.columns (af.field_name.getD "") with
      | some _ => some (IbisExpr.aggE af.op (IbisExpr.column (af.field_name.getD "")))
      | none => none
    else
      some (IbisExpr.aggTable af.op)
  agg_base.map fun agg_field =>
    if strTruthy af.aliasName then IbisExpr.named agg_field (af.aliasName.getD "") else agg_field

/-- Embeds `FilterField` from `query_builder.py`: a comparison operator
(`none` means a custom raw-SQL filter held in `left`), literal operands
and/or column-name operands. -/
structure FilterField where
  expr : Option CmpOp
  left : Option LitVal
  right : Option LitVal
  left_field : Option String
  right_field : Option String
deriving DecidableEq, Repr

/-- The `FilterField.custom` static constructor: raw SQL carried in
`left`. -/
def FilterField.custom (e : String) : FilterField :=
  ⟨none, some (LitVal.strV e), none, none, none⟩

/-- The `FilterField.equal_to` static constructor. -/
def FilterField.equal_to (field_name : String) (value : LitVal) : FilterField :=
  ⟨some CmpOp.eq, none, some value, some field_name, none⟩

/-- Resolve one side of a filter: a truthy `*_field` is looked up in the
table (with the datetime-to-date cast the code applies to `Timestamp`
columns), otherwise the literal operand is used (`noneLit` when absent). -/
def filterOperand (ibis_table : IbisTable) (fld : Option String) (litv : Option LitVal) :
    Option IbisExpr :=
  if strTruthy fld then
    match alookup ibis_table.columns (fld.getD "") with
    | some ColType.Timestamp => some (IbisExpr.castE (IbisExpr.column (fld.getD "")) "date")
    | some _ => some (IbisExpr.column (fld.getD ""))
    | none => none
  else
    match litv with
    | some v => some (IbisExpr.lit v)
    | none => some IbisExpr.noneLit

/-- `FilterField.compile`: custom filters compile to raw SQL; structured
filters resolve both operands (casting `Timestamp` columns to date) and
apply the comparison operator. -/
def FilterField.compile (ff : FilterField) (ibis_table : IbisTable) : Option IbisExpr :=
  match ff.expr with
  | none =>
      some (IbisExpr.rawSQL (match ff.left with | some (LitVal.strV s) => s | _ => ""))
  | some op =>
      match filterOperand ibis_table ff.left_field ff.left,
            filterOperand ibis_table ff.right_field ff.right with
      | some l, some r => some (IbisExpr.cmp op l r)
      | _, _ => none

/-- Embeds `GroupedField` from `query_builder.py`: a group-by column with
an optional alias and an optional cast. -/
structure GroupedField where
  field_name : String
  aliasName : Option String
  cast : Option String
deriving DecidableEq, Repr

/-- `GroupedField.compile`: look the column up in the table, then apply a
truthy explicit cast; otherwise cast `Timestamp` columns to `date`;
otherwise leave the column uncast and emit a warning (the returned flag
records that the warning branch was taken).  Finally name the field with
the alias, defaulting to the column name. -/
def GroupedField.compile (gf : GroupedField) (ibis_table : IbisTable) :
    Option (IbisExpr × Bool) :=
  match alookup ibis_table.columns gf.field_name with
  | none => none
  | some colty =>
      let group_field0 := IbisExpr.column gf.field_name
      let step : IbisExpr × Bool :=
        if strTruthy gf.cast then (IbisExpr.castE group_field0 (gf.cast.getD ""), false)
        else if colty = ColType.Timestamp then (IbisExpr.castE group_field0 "date", false)
        else (group_field0, true)
      let aname := if strTruthy gf.aliasName then gf.aliasName.getD "" else gf.field_name
      some (IbisExpr.named step.1 aname, step.2)

/-- Embeds `QueryBuilder`: ordered aggregate, filter and group-by field
lists plus an optional row limit. -/
structure QueryBuilder where
  aggregate_fields : List AggregateField
  filters : List FilterField
  grouped_fields : List GroupedField
  limit : Option Int
deriving DecidableEq, Repr

/-- The `QueryBuilder.build_count_validator` static constructor: empty
field lists with an optional limit. -/
def QueryBuilder.build_count_validator (limit : Option Int) : QueryBuilder :=
  ⟨[], [], [], limit⟩

/-- `QueryBuilder.compile_aggregate_fields`: compile every aggregate
field against the table. -/
def QueryBuilder.compile_aggregate_fields (qb : QueryBuilder) (table : IbisTable) :
    Option (List IbisExpr) :=
  qb.aggregate_fields.mapM fun field => field.compile table

/-- `QueryBuilder.compile_filter_fields`: compile every filter field
against the table. -/
def QueryBuilder.compile_filter_fields (qb : QueryBuilder) (table : IbisTable) :
    Option (List IbisExpr) :=
  qb.filters.mapM fun field => field.compile table

/-- `QueryBuilder.compile_group_fields`: compile every grouped field
against the table (each result carries its warning flag). -/
def QueryBuilder.compile_group_fields (qb : QueryBuilder) (table : IbisTable) :
    Option (List (IbisExpr × Bool)) :=
  qb.grouped_fields.mapM fun field => field.compile table

/-- The inert query object `QueryBuilder.compile` returns: the resolved
table, the compiled filter, group and aggregate expressions, and the
applied row limit. -/
structure CompiledQuery where
  table : IbisTable
  filters : List IbisExpr
  groups : List (IbisExpr × Bool)
  aggs : List IbisExpr
  limit : Option Int
deriving DecidableEq, Repr

/-- `QueryBuilder.compile`: resolve the table through the client, compile
the three field lists, assemble the query and apply the row limit only
when it is truthy (`if self.limit:`). -/
def QueryBuilder.compile (qb : QueryBuilder) (data_client : DataClient)
    (schema_name table_name : String) : Option CompiledQuery :=
  let table := data_client table_name schema_name
  match qb.compile_aggregate_fields table, qb.compile_filter_fields table,
        qb.compile_group_fields table with
  | some aggs, some filters, some groups =>
      let query : CompiledQuery :=
        { table := table, filters := filters, groups := groups, aggs := aggs, limit := none }
      if intTruthy qb.limit then some { query with limit := qb.limit } else some query
  | _, _, _ => none

/-- `QueryBuilder.add_aggregate_field`: append the aggregate field to the
builder (the Python method mutates the list in place; here the updated
builder is returned). -/
def QueryBuilder.add_aggregate_field (qb : QueryBuilder) (aggregate_field : AggregateField) :
    QueryBuilder :=
  { qb with aggregate_fields := qb.aggregate_fields ++ [aggregate_field] }

/-- `QueryBuilder.add_grouped_field`: append the grouped field. -/
def QueryBuilder.add_grouped_field (qb : QueryBuilder) (grouped_field : GroupedField) :
    QueryBuilder :=
  { qb with grouped_fields := qb.grouped_fields ++ [grouped_field] }

/-- `QueryBuilder.add_filter_field`: append the filter field. -/
def QueryBuilder.add_filter_field (qb : QueryBuilder) (filter_obj : FilterField) :
    QueryBuilder :=
  { qb with filters := qb.filters ++ [filter_obj] }

/-- Errors of the validation engine, per the taxonomy of the spec.  The
`TypeErr` constructor stands for the Python `TypeError` raised when
`json.loads` is handed `None`. -/
inductive DVError where
  | ConfigError
  | ColumnNotFoundError (col : String)
  | TypeErr
deriving DecidableEq, Repr

/-- Modelled from the spec: the duplicate-alias check the spec assigns to
`addAggregate` of the Query Plan Builder contract, stated for comparison
with the source's `QueryBuilder.add_aggregate_field`.  All aliases
already present in the plan (aggregates and group fields) are collected
and a duplicate alias fails with `ConfigError`. -/
def addAggregate_specModel (qb : QueryBuilder) (aggregate_field : AggregateField) :
    Except DVError QueryBuilder :=
  let planAliases :=
    qb.aggregate_fields.map (fun f => f.aliasName) ++ qb.grouped_fields.map (fun f => f.aliasName)
  if aggregate_field.aliasName.isSome ∧ aggregate_field.aliasName ∈ planAliases then
    Except.error DVError.ConfigError
  else
    Except.ok { qb with aggregate_fields := qb.aggregate_fields ++ [aggregate_field] }

/-- Modelled from the spec: the `consts` module (not part of this tree) —
key under which a validation block stores its kind. -/
def CONFIG_TYPE : String := "type"

/-- Modelled from the spec: `consts.CONFIG_SCHEMA_NAME`. -/
def CONFIG_SCHEMA_NAME : String := "schema_name"

/-- Modelled from the spec: `consts.CONFIG_TABLE_NAME`. -/
def CONFIG_TABLE_NAME : String := "table_name"

/-- Modelled from the spec: `consts.CONFIG_GROUPED_COLUMNS`. -/
def CONFIG_GROUPED_COLUMNS : String := "grouped_columns"

/-- One aggregate spec produced by the config model: the dict with keys
`consts.CONFIG_SOURCE_COLUMN`, `consts.CONFIG_TARGET_COLUMN`,
`consts.CONFIG_FIELD_ALIAS` and `consts.CONFIG_TYPE` that the unit tests
inspect. -/
structure AggregateSpec where
  source_column : Option String
  target_column : Option String
  field_alias : String
  agg_type : String
deriving DecidableEq, Repr

/-- One grouped-column spec produced by the config model: the dict with
keys `consts.CONFIG_SOURCE_COLUMN`, `consts.CONFIG_TARGET_COLUMN`,
`consts.CONFIG_FIELD_ALIAS` and `consts.CONFIG_CAST`. -/
structure GroupedSpec where
  source_column : String
  target_column : String
  field_alias : String
  cast : Option String
deriving DecidableEq, Repr

/-- Modelled from the spec: the `ConfigManager` class
(`data_validation/config_manager.py`, not part of this tree).  The fields
are the parts of the validation config the claims touch: the validation
kind, the source table identifiers, the source table's column catalog
(column name to declared type string, as `listColumns` returns it) and
the aggregate / group-by / primary-key spec lists built by the
`append_*` calls. -/
structure ConfigManager where
  validation_type : String
  schema_name : String
  table_name : String
  source_catalog : List (String × String)
  aggregates : List AggregateSpec
  query_groups : List GroupedSpec
  primary_keys : List GroupedSpec
deriving DecidableEq, Repr

/-- Modelled from the spec: a column type is temporal when it is the
timestamp type (cross-backend timestamp precision is not comparable, so
such columns default to a date cast). -/
def isTemporalType (t : String) : Bool := t = "timestamp"

/-- Modelled from the spec: `ConfigManager.build_config_count_aggregate` —
the synthetic whole-table count aggregate every validation carries, with
alias `"count"`, type `"count"` and no source or target column (the unit
test `test_build_config_count_aggregate` pins each field). -/
def ConfigManager.build_config_count_aggregate (_cm : ConfigManager) : AggregateSpec :=
  { source_column := none, target_column := none, field_alias := "count", agg_type := "count" }

/-- Modelled from the spec: `ConfigManager.build_config_column_aggregates`.
When `arg_value` is `none` (the CLI wildcard `"*"`) every catalog column
is considered; a column is included only if `supported_types` is empty or
contains the column's declared type; each included column `c` yields the
spec with source and target column `c`, alias `agg_type ++ "__" ++ c` and
type `agg_type` (pinned by `test_build_config_aggregates`). -/
def ConfigManager.build_config_column_aggregates (cm : ConfigManager) (agg_type : String)
    (arg_value : Option (List String)) (supported_types : List String) : List AggregateSpec :=
  let allowlist := arg_value.getD (cm.source_catalog.map Prod.fst)
  allowlist.filterMap fun column =>
    match alookup cm.source_catalog column with
    | none => none
    | some column_type =>
        if supported_types.isEmpty || supported_types.contains column_type then
          some { source_column := some column, target_column := some column,
                 field_alias := agg_type ++ "__" ++ column, agg_type := agg_type }
        else
          none

/-- Modelled from the spec: the per-column resolution loop of
`ConfigManager.build_config_grouped_columns` (not part of this tree).
Each requested column is resolved against the catalog — unknown names
fail with `ColumnNotFoundError` — and yields a spec whose alias defaults
to the column name, with the date-truncation cast attached exactly for
temporal columns (pinned by `test_build_config_grouped_columns`). -/
def buildGroupedSpecs (catalog : List (String × String)) :
    List String → Except DVError (List GroupedSpec)
  | [] => Except.ok []
  | col :: rest =>
      match alookup catalog col with
      | none => Except.error (DVError.ColumnNotFoundError col)
      | some ty =>
          (buildGroupedSpecs catalog rest).map fun gs =>
            { source_column := col, target_column := col, field_alias := col,
              cast := if isTemporalType ty then some "date" else none } :: gs

/-- Modelled from the spec: `ConfigManager.build_config_grouped_columns`
resolves the requested columns against the source catalog. -/
def ConfigManager.build_config_grouped_columns (cm : ConfigManager) (cols : List String) :
    Except DVError (List GroupedSpec) :=
  buildGroupedSpecs cm.source_catalog cols

/-- Modelled from the spec: `ConfigManager.process_in_memory` — true when
the validation kind is `Column`/`GroupedColumn`, false for `Row` (pinned
by `test_process_in_memory`). -/
def ConfigManager.process_in_memory (cm : ConfigManager) : Bool :=
  cm.validation_type == "Column" || cm.validation_type == "GroupedColumn"

/-- Modelled from the spec: `ConfigManager.append_aggregates` — the
controlled builder call extending the aggregate spec list. -/
def ConfigManager.append_aggregates (cm : ConfigManager) (aggs : List AggregateSpec) :
    ConfigManager :=
  { cm with aggregates := cm.aggregates ++ aggs }

/-- Modelled from the spec: `ConfigManager.append_query_groups`. -/
def ConfigManager.append_query_groups (cm : ConfigManager) (groups : List GroupedSpec) :
    ConfigManager :=
  { cm with query_groups := cm.query_groups ++ groups }

/-- Modelled from the spec: `ConfigManager.append_primary_keys`. -/
def ConfigManager.append_primary_keys (cm : ConfigManager) (keys : List GroupedSpec) :
    ConfigManager :=
  { cm with primary_keys := cm.primary_keys ++ keys }

/-- One already-decoded CLI column argument: the wildcard marker `"*"` or
a JSON list of column names (`json.loads` string decoding itself is out
of scope of the embedding). -/
inductive ColArg where
  | star
  | cols (cs : List String)
deriving DecidableEq, Repr

/-- `None if args.x == "*" else json.loads(args.x)` from
`get_aggregate_config`. -/
def ColArg.toCols : ColArg → Option (List String)
  | .star => none
  | .cols cs => some cs

/-- The CLI argument fields `build_config_from_args` and
`get_aggregate_config` read; `none` models an argument the user did not
pass (falsy in the Python `if args.x:` tests). -/
structure Args where
  count : Option ColArg
  sum : Option ColArg
  avg : Option ColArg
  min : Option ColArg
  max : Option ColArg
  grouped_columns : Option (List String)
  primary_keys : Option (List String)
deriving DecidableEq, Repr

/-- Embeds `get_aggregate_config` from `__main__.py`: start from the
synthetic whole-table count aggregate, then append the per-kind column
aggregates for each argument the user passed — `count` with no type
restriction, `sum`/`avg`/`min`/`max` restricted to
`["int64", "float64"]`. -/
def get_aggregate_config (args : Args) (config_manager : ConfigManager) :
    List AggregateSpec :=
  let aggregate_configs := [config_manager.build_config_count_aggregate]
  let aggregate_configs := aggregate_configs ++
    (match args.count with
     | some v => config_manager.build_config_column_aggregates "count" v.toCols []
     | none => [])
  let aggregate_configs := aggregate_configs ++
    (match args.sum with
     | some v => config_manager.build_config_column_aggregates "sum" v.toCols ["int64", "float64"]
     | none => [])
  let aggregate_configs := aggregate_configs ++
    (match args.avg with
     | some v => config_manager.build_config_column_aggregates "avg" v.toCols ["int64", "float64"]
     | none => [])
  let aggregate_configs := aggregate_configs ++
    (match args.min with
     | some v => config_manager.build_config_column_aggregates "min" v.toCols ["int64", "float64"]
     | none => [])
  let aggregate_configs := aggregate_configs ++
    (match args.max with
     | some v => config_manager.build_config_column_aggregates "max" v.toCols ["int64", "float64"]
     | none => [])
  aggregate_configs

/-- Embeds `build_config_from_args` from `__main__.py`: append the
aggregate configs; for `GroupedColumn`/`Row` kinds decode and append the
grouped columns (`json.loads(None)` raises `TypeError` when the argument
is absent); for `Row` kind decode the primary keys with
`args.primary_keys or "[]"` — an absent argument silently defaults to the
empty list — and append them.  No check requires the primary-key list to
be non-empty. -/
def build_config_from_args (args : Args) (config_manager : ConfigManager) :
    Except DVError ConfigManager := do
  let cm := config_manager.append_aggregates (get_aggregate_config args config_manager)
  let cm ←
    if cm.validation_type = "GroupedColumn" ∨ cm.validation_type = "Row" then do
      let grouped_columns ←
        match args.grouped_columns with
        | none => Except.error DVError.TypeErr
        | some gc => Except.ok gc
      let gq ← cm.build_config_grouped_columns grouped_columns
      Except.ok (cm.append_query_groups gq)
    else
      Except.ok cm
  if cm.validation_type = "Row" then do
    let primary_keys := args.primary_keys.getD []
    let pks ← cm.build_config_grouped_columns primary_keys
    Except.ok (cm.append_primary_keys pks)
  else
    Except.ok cm

/-- A value stored in a serialized validation block: a plain string or
the list of grouped-column specs. -/
inductive YamlValue where
  | str (s : String)
  | groups (gs : List GroupedSpec)
deriving DecidableEq, Repr

/-- The core-owned fields of one serialized validation block. -/
structure ValidationBlockCore where
  validation_type : String
  schema_name : String
  table_name : String
  grouped_columns : List GroupedSpec
deriving DecidableEq, Repr

/-- Modelled from the spec: `ConfigManager.get_yaml_validation_block` —
re-encode the live config in the deterministic field order
{kind, schema name, table name, grouped columns}
(`test_get_yaml_validation_block` pins exactly these keys in this
order). -/
def ConfigManager.get_yaml_validation_block (cm : ConfigManager) :
    List (String × YamlValue) :=
  [(CONFIG_TYPE, YamlValue.str cm.validation_type),
   (CONFIG_SCHEMA_NAME, YamlValue.str cm.schema_name),
   (CONFIG_TABLE_NAME, YamlValue.str cm.table_name),
   (CONFIG_GROUPED_COLUMNS, YamlValue.groups cm.query_groups)]

/-- Serialize the core-owned fields of a validation block in the same
deterministic order the config model emits. -/
def serializeBlockCore (b : ValidationBlockCore) : List (String × YamlValue) :=
  [(CONFIG_TYPE, YamlValue.str b.validation_type),
   (CONFIG_SCHEMA_NAME, YamlValue.str b.schema_name),
   (CONFIG_TABLE_NAME, YamlValue.str b.table_name),
   (CONFIG_GROUPED_COLUMNS, YamlValue.groups b.grouped_columns)]

/-- Modelled from the spec: parsing the core-owned fields of a serialized
validation block — the inverse of `get_yaml_validation_block`.  A block
parses only when it lists exactly the four core fields in the
deterministic order. -/
def parseValidationBlock : List (String × YamlValue) → Option ValidationBlockCore
  | [("type", YamlValue.str v), ("schema_name", YamlValue.str s),
     ("table_name", YamlValue.str t), ("grouped_columns", YamlValue.groups g)] =>
      some { validation_type := v, schema_name := s, table_name := t, grouped_columns := g }
  | _ => none

/-- A result row: an ordered mapping from output alias (aggregate alias
or group alias) to its integer value, as the Backend Client returns it. -/
def ResultRow : Type := List (String × Int)

/-- The verdict classifying one reconciled (group, alias) pair. -/
inductive Verdict where
  | matched
  | mismatch
  | sourceOnly
  | targetOnly
deriving DecidableEq, Repr

/-- One reconciled result: group-key values, the aggregate alias, both
side values, the difference (absent when a side is missing) and the
verdict. -/
structure ValidationResult where
  group_key : List (Option Int)
  field_alias : String
  source_value : Option Int
  target_value : Option Int
  difference : Option Int
  verdict : Verdict
deriving DecidableEq, Repr

/-- The group-key tuple of a row: the row's value under each group-key
alias (absent aliases give `none`), collapsing to the empty tuple for
whole-table aggregates. -/
def rowKey (keys : List String) (r : ResultRow) : List (Option Int) :=
  keys.map fun k => alookup r k

/-- Insert into a key-to-row mapping with Python-dict semantics: an
existing key keeps its first-seen position but takes the new row; a new
key is appended. -/
def kmInsert (m : List (List (Option Int) × ResultRow)) (k : List (Option Int))
    (r : ResultRow) : List (List (Option Int) × ResultRow) :=
  match m with
  | [] => [(k, r)]
  | (k0, r0) :: rest =>
      if k0 = k then (k0, r) :: rest else (k0, r0) :: kmInsert rest k r

/-- Modelled from the spec: the reconciler builds, for each side, a
mapping from group-key tuple to row. -/
def buildKeyMap (keys : List String) (rows : List ResultRow) :
    List (List (Option Int) × ResultRow) :=
  rows.foldl (fun m r => kmInsert m (rowKey keys r) r) []

/-- Modelled from the spec: for one group present on both sides, compute
per alias the difference `target_value - source_value` and classify
`matched` exactly when its magnitude is within the pass-through threshold
(zero by default). -/
def compareRow (aliases : List String) (threshold : Nat) (k : List (Option Int))
    (sr tr : ResultRow) : List ValidationResult :=
  aliases.map fun a =>
    let sv := alookup sr a
    let tv := alookup tr a
    let diff := tv.getD 0 - sv.getD 0
    { group_key := k, field_alias := a, source_value := sv, target_value := tv,
      difference := some diff,
      verdict := if diff.natAbs ≤ threshold then Verdict.matched else Verdict.mismatch }

/-- Modelled from the spec: reconcile one group key against the two
key-to-row mappings — both sides present yields per-alias comparisons,
one side present yields `sourceOnly`/`targetOnly` rows with the opposite
value recorded as absent. -/
def reconcileOne (aliases : List String) (threshold : Nat)
    (sm tm : List (List (Option Int) × ResultRow)) (k : List (Option Int)) :
    List ValidationResult :=
  match alookup sm k, alookup tm k with
  | some sr, some tr => compareRow aliases threshold k sr tr
  | some sr, none =>
      aliases.map fun a =>
        { group_key := k, field_alias := a, source_value := alookup sr a,
          target_value := none, difference := none, verdict := Verdict.sourceOnly }
  | none, some tr =>
      aliases.map fun a =>
        { group_key := k, field_alias := a, source_value := none,
          target_value := alookup tr a, difference := none, verdict := Verdict.targetOnly }
  | none, none => []

/-- Reconcile an ordered list of group keys. -/
def reconcileKeys (aliases : List String) (threshold : Nat)
    (sm tm : List (List (Option Int) × ResultRow)) :
    List (List (Option Int)) → List ValidationResult
  | [] => []
  | k :: ks =>
      reconcileOne aliases threshold sm tm k ++ reconcileKeys aliases threshold sm tm ks

/-- Modelled from the spec: the Result Reconciler with an explicit
pass-through threshold.  Output order follows the source-side keys in
first-seen order, then the target-only keys. -/
def reconcileWithThreshold (threshold : Nat) (sourceRows targetRows : List ResultRow)
    (keys aliases : List String) : List ValidationResult :=
  let sm := buildKeyMap keys sourceRows
  let tm := buildKeyMap keys targetRows
  let orderedKeys :=
    sm.map Prod.fst ++ (tm.map Prod.fst).filter (fun k => (alookup sm k).isNone)
  reconcileKeys aliases threshold sm tm orderedKeys

/-- Modelled from the spec: `reconcile` — the reconciler with the
threshold defaulted to zero (no implicit tolerance). -/
def reconcile (sourceRows targetRows : List ResultRow) (keys aliases : List String) :
    List ValidationResult :=
  reconcileWithThreshold 0 sourceRows targetRows keys aliases

/-- A reconciled result that is an exact match: verdict `matched` with a
difference of exactly zero. -/
def isZeroMatch (res : ValidationResult) : Bool :=
  res.verdict == Verdict.matched && res.difference == some 0

/-- A builder whose plan already holds an aggregate with alias
`"count"`. -/
def qbDupAlias : QueryBuilder :=
  { aggregate_fields := [AggregateField.count none (some "count")],
    filters := [], grouped_fields := [], limit := none }

/-- A second aggregate field defaulting to the same alias `"count"`. -/
def afDupAlias : AggregateField := AggregateField.count none (some "count")

/-- C2.  The claim fails on the code: `add_aggregate_field` performs no
alias-uniqueness check at all.  Adding an aggregate whose alias `"count"`
duplicates one already in the plan succeeds and leaves two fields with
that alias, while the behaviour the spec demands would reject it with
`ConfigError`. -/
theorem add_aggregate_field_accepts_duplicate_alias :
    ((qbDupAlias.add_aggregate_field afDupAlias).aggregate_fields.countP
        (fun f => f.aliasName == some "count")) = 2
  ∧ addAggregate_specModel qbDupAlias afDupAlias = Except.error DVError.ConfigError := by
  constructor
  · rfl
  · rfl

/-- C2 (amended).  The `add_aggregate_field`, `add_filter_field` and
`add_grouped_field` operations are pure appends with no validation of any
kind: each returns the builder with the field appended and everything
else unchanged, even when the new alias duplicates one already present. -/
theorem add_field_operations_pure_append (qb : QueryBuilder) (af : AggregateField)
    (ff : FilterField) (gf : GroupedField) :
    qb.add_aggregate_field af = { qb with aggregate_fields := qb.aggregate_fields ++ [af] }
  ∧ qb.add_filter_field ff = { qb with filters := qb.filters ++ [ff] }
  ∧ qb.add_grouped_field gf = { qb with grouped_fields := qb.grouped_fields ++ [gf] } :=
  ⟨rfl, rfl, rfl⟩

/-- C6.  `process_in_memory` returns true exactly when the validation
kind is `Column` or `GroupedColumn`, and returns false for `Row`. -/
theorem process_in_memory_iff_kind (cm : ConfigManager) :
    (cm.process_in_memory = true ↔
      (cm.validation_type = "Column" ∨ cm.validation_type = "GroupedColumn"))
  ∧ (cm.validation_type = "Row" → cm.process_in_memory = false) := by
  constructor
  · simp [ConfigManager.process_in_memory]
  · intro h
    simp [ConfigManager.process_in_memory, h]

/-- A Row-kind config used to instantiate the `process_in_memory`
theorem. -/
def cmRowKind : ConfigManager :=
  { validation_type := "Row", schema_name := "s", table_name := "t",
    source_catalog := [("a", "int64")], aggregates := [], query_groups := [],
    primary_keys := [] }

/-- C6 witness: on a concrete Row-kind config, `process_in_memory`
evaluates to false. -/
theorem process_in_memory_iff_kind_witness : cmRowKind.process_in_memory = false :=
  (process_in_memory_iff_kind cmRowKind).2 rfl

/-- C8.  The serialized validation block lists exactly the core-owned
fields {kind, schema name, table name, grouped columns} in that
deterministic order, and parsing a block produced this way and
re-serializing it reproduces it exactly (round-trip stability). -/
theorem yaml_validation_block_roundtrip (cm : ConfigManager) :
    (cm.get_yaml_validation_block.map Prod.fst =
      [CONFIG_TYPE, CONFIG_SCHEMA_NAME, CONFIG_TABLE_NAME, CONFIG_GROUPED_COLUMNS])
  ∧ (parseValidationBlock cm.get_yaml_validation_block).map serializeBlockCore =
      some cm.get_yaml_validation_block := by
  constructor
  · rfl
  · rfl

/-- C9.  `build_config_grouped_columns ["a"]`, when column `a` resolves
to a non-temporal type, yields exactly one spec whose source column,
target column and alias are all `"a"` with no cast attached. -/
theorem build_config_grouped_columns_non_temporal (cm : ConfigManager) (t : String)
    (hlk : alookup cm.source_catalog "a" = some t)
    (htemp : isTemporalType t = false) :
    cm.build_config_grouped_columns ["a"] =
      Except.ok [{ source_column := "a", target_column := "a", field_alias := "a",
                   cast := none }] := by
  simp [ConfigManager.build_config_grouped_columns, buildGroupedSpecs, hlk, htemp,
    Except.map]

/-- A Column-kind config whose catalog holds one int64 column `a`. -/
def cmIntCatalog : ConfigManager :=
  { validation_type := "Column", schema_name := "s", table_name := "t",
    source_catalog := [("a", "int64")], aggregates := [], query_groups := [],
    primary_keys := [] }

/-- C9 witness: against the concrete catalog where `a` is `int64`, the
grouped-column config is the single cast-free spec. -/
theorem build_config_grouped_columns_non_temporal_witness :
    cmIntCatalog.build_config_grouped_columns ["a"] =
      Except.ok [{ source_column := "a", target_column := "a", field_alias := "a",
                   cast := none }] :=
  build_config_grouped_columns_non_temporal cmIntCatalog "int64" rfl rfl

/-- C5.  `build_config_column_aggregates "sum" ["a"] ["int64","float64"]`
yields exactly the single spec with source and target column `"a"`, alias
`"sum__a"` and type `"sum"` when the catalog declares `a` as `int64`, and
yields the empty list when the declared type of `a` is outside the
allowed set. -/
theorem build_config_column_aggregates_sum_allowed_types
    (cm : ConfigManager) (t : String)
    (hlk : alookup cm.source_catalog "a" = some t) :
    (t = "int64" →
      cm.build_config_column_aggregates "sum" (some ["a"]) ["int64", "float64"] =
        [{ source_column := some "a", target_column := some "a",
           field_alias := "sum__a", agg_type := "sum" }])
  ∧ (t ∉ (["int64", "float64"] : List String) →
      cm.build_config_column_aggregates "sum" (some ["a"]) ["int64", "float64"] = []) := by
  constructor
  · intro ht
    subst ht
    simp [ConfigManager.build_config_column_aggregates, hlk]
  · intro ht
    simp [ConfigManager.build_config_column_aggregates, hlk]
    simpa using ht

/-- A Column-kind config whose catalog declares `a` as `string`. -/
def cmStrCatalog : ConfigManager :=
  { validation_type := "Column", schema_name := "s", table_name := "t",
    source_catalog := [("a", "string")], aggregates := [], query_groups := [],
    primary_keys := [] }

/-- C5 witness: both branches instantiated on concrete catalogs — `a` as
`int64` yields the single `sum__a` spec, `a` as `string` yields the empty
list. -/
theorem build_config_column_aggregates_sum_allowed_types_witness :
    (cmIntCatalog.build_config_column_aggregates "sum" (some ["a"]) ["int64", "float64"] =
      [{ source_column := some "a", target_column := some "a",
         field_alias := "sum__a", agg_type := "sum" }])
  ∧ (cmStrCatalog.build_config_column_aggregates "sum" (some ["a"]) ["int64", "float64"] = []) :=
  ⟨(build_config_column_aggregates_sum_allowed_types cmIntCatalog "int64" rfl).1 rfl,
   (build_config_column_aggregates_sum_allowed_types cmStrCatalog "string" rfl).2 (by decide)⟩

/-- The CLI arguments of a Row-kind run in which the user supplied
grouped columns but no primary keys. -/
def argsNoPrimaryKeys : Args :=
  { count := none, sum := none, avg := none, min := none, max := none,
    grouped_columns := some ["a"], primary_keys := none }

/-- C3.  The claim fails on the code: `build_config_from_args` never
checks that a Row-kind validation has primary keys.  With the primary-key
argument absent it evaluates `args.primary_keys or "[]"`, appends the
empty list, and construction succeeds — no `ConfigError` is raised. -/
theorem row_config_without_primary_keys_accepted :
    (build_config_from_args argsNoPrimaryKeys cmRowKind).toOption.map
      (fun cm => cm.primary_keys) = some [] := by
  rfl

/-- C3 (amended).  For a Row-kind config whose primary-key argument is
absent or empty (and whose grouped columns resolve), construction
succeeds: the primary-key argument defaults to the empty list, which is
appended, so the resulting config's primary keys are unchanged (empty
when starting empty) and no error of any kind is reported. -/
theorem row_config_missing_primary_keys_defaults_empty
    (args : Args) (cm : ConfigManager)
    (hrow : cm.validation_type = "Row")
    (hpk : args.primary_keys.getD [] = [])
    (gc : List String) (hgc : args.grouped_columns = some gc)
    (gspecs : List GroupedSpec)
    (hok : cm.build_config_grouped_columns gc = Except.ok gspecs) :
    build_config_from_args args cm =
      Except.ok (((cm.append_aggregates (get_aggregate_config args cm)).append_query_groups
        gspecs).append_primary_keys [])
  ∧ (((cm.append_aggregates (get_aggregate_config args cm)).append_query_groups
        gspecs).append_primary_keys []).primary_keys = cm.primary_keys := by
  have hok2 : buildGroupedSpecs cm.source_catalog gc = Except.ok gspecs := hok
  constructor
  · simp [build_config_from_args, hrow, hpk, hgc, hok2, Bind.bind, Except.bind,
      ConfigManager.build_config_grouped_columns, buildGroupedSpecs,
      ConfigManager.append_query_groups, ConfigManager.append_aggregates,
      ConfigManager.append_primary_keys]
  · simp [ConfigManager.append_primary_keys, ConfigManager.append_query_groups,
      ConfigManager.append_aggregates]

/-- C3 (amended) witness: the concrete Row-kind run with no primary-key
argument constructs successfully and ends with the empty primary-key
list. -/
theorem row_config_missing_primary_keys_defaults_empty_witness :
    (build_config_from_args argsNoPrimaryKeys cmRowKind =
      Except.ok (((cmRowKind.append_aggregates
        (get_aggregate_config argsNoPrimaryKeys cmRowKind)).append_query_groups
          [{ source_column := "a", target_column := "a", field_alias := "a",
             cast := none }]).append_primary_keys []))
  ∧ (((cmRowKind.append_aggregates
        (get_aggregate_config argsNoPrimaryKeys cmRowKind)).append_query_groups
          [{ source_column := "a", target_column := "a", field_alias := "a",
             cast := none }]).append_primary_keys []).primary_keys = cmRowKind.primary_keys :=
  row_config_missing_primary_keys_defaults_empty argsNoPrimaryKeys cmRowKind rfl rfl
    ["a"] rfl _ rfl

/-- C10.  `QueryBuilder.compile` appends the row limit only when it is
truthy: a limit of `none` and a limit of `some 0` compile to the same
query, and whenever compilation succeeds the resulting query carries the
builder's limit exactly when that limit is truthy. -/
theorem compile_applies_limit_only_when_truthy (qb : QueryBuilder) (client : DataClient)
    (schema_name table_name : String) :
    ({ qb with limit := some 0 } : QueryBuilder).compile client schema_name table_name =
      ({ qb with limit := none } : QueryBuilder).compile client schema_name table_name
  ∧ ∀ q, qb.compile client schema_name table_name = some q →
      q.limit = if intTruthy qb.limit then qb.limit else none := by
  constructor
  · rfl
  · intro q h
    simp only [QueryBuilder.compile] at h
    cases h1 : qb.compile_aggregate_fields (client table_name schema_name) with
    | none => rw [h1] at h; simp at h
    | some aggs =>
      cases h2 : qb.compile_filter_fields (client table_name schema_name) with
      | none => rw [h1, h2] at h; simp at h
      | some filters =>
        cases h3 : qb.compile_group_fields (client table_name schema_name) with
        | none => rw [h1, h2, h3] at h; simp at h
        | some groups =>
          rw [h1, h2, h3] at h
          by_cases hl : intTruthy qb.limit = true
          · simp only [if_pos hl] at h
            injection h with h
            subst h
            simp [hl]
          · simp only [if_neg hl] at h
            injection h with h
            subst h
            simp [hl]

/-- A concrete table, client, builder and compiled query instantiating
the limit theorem. -/
def tableW : IbisTable := { tname := "t", columns := [("a", ColType.Int64)] }

/-- A client that serves `tableW` for every request. -/
def clientW : DataClient := fun _ _ => tableW

/-- An empty builder with the truthy limit 5. -/
def qbLimitW : QueryBuilder :=
  { aggregate_fields := [], filters := [], grouped_fields := [], limit := some 5 }

/-- The query `qbLimitW` compiles to. -/
def compiledW : CompiledQuery :=
  { table := tableW, filters := [], groups := [], aggs := [], limit := some 5 }

/-- C10 witness: on the concrete builder with limit 5 the compiled query
carries limit 5, and zero/none limits compile identically. -/
theorem compile_applies_limit_only_when_truthy_witness :
    (({ qbLimitW with limit := some 0 } : QueryBuilder).compile clientW "s" "t" =
      ({ qbLimitW with limit := none } : QueryBuilder).compile clientW "s" "t")
  ∧ compiledW.limit = if intTruthy qbLimitW.limit then qbLimitW.limit else none :=
  ⟨(compile_applies_limit_only_when_truthy qbLimitW clientW "s" "t").1,
   (compile_applies_limit_only_when_truthy qbLimitW clientW "s" "t").2 compiledW rfl⟩

/-- Normal form of `GroupedField.compile` when the column resolves: the
compiled expression is the column under the chosen cast, named with the
alias default, and the warning flag fires exactly when no truthy cast is
given and the column is not a timestamp. -/
theorem grouped_field_compile_eq (gf : GroupedField) (t : IbisTable) (ty : ColType)
    (hty : alookup t.columns gf.field_name = some ty) :
    gf.compile t = some
      (IbisExpr.named
        (if strTruthy gf.cast then
          IbisExpr.castE (IbisExpr.column gf.field_name) (gf.cast.getD "")
         else if ty = ColType.Timestamp then
          IbisExpr.castE (IbisExpr.column gf.field_name) "date"
         else IbisExpr.column gf.field_name)
        (if strTruthy gf.aliasName then gf.aliasName.getD "" else gf.field_name),
       (!strTruthy gf.cast && !(ty == ColType.Timestamp))) := by
  by_cases h1 : strTruthy gf.cast <;> by_cases h2 : ty = ColType.Timestamp <;>
    simp [GroupedField.compile, hty, h1, h2]

/-- C4.  Cast precedence in `GroupedField.compile`: a supplied (truthy)
explicit cast is applied; otherwise a `Timestamp` column is cast to date;
otherwise the column passes through uncast and the warning flag is set —
and the warning fires in exactly that pass-through case, never
elsewhere. -/
theorem grouped_field_compile_cast_precedence (gf : GroupedField) (t : IbisTable)
    (ty : ColType) (hty : alookup t.columns gf.field_name = some ty) :
    (∀ c, gf.cast = some c → c ≠ "" →
      ∃ e, gf.compile t = some (e, false) ∧ appliedCast e = some c)
  ∧ (gf.cast = none → ty = ColType.Timestamp →
      ∃ e, gf.compile t = some (e, false) ∧ appliedCast e = some "date")
  ∧ (gf.cast = none → ty ≠ ColType.Timestamp →
      ∃ e, gf.compile t = some (e, true) ∧ appliedCast e = none)
  ∧ (∀ e w, gf.compile t = some (e, w) →
      (w = true ↔ (strTruthy gf.cast = false ∧ ty ≠ ColType.Timestamp))) := by
  have hnf := grouped_field_compile_eq gf t ty hty
  refine ⟨?_, ?_, ?_, ?_⟩
  · intro c hc hne
    rw [hc] at hnf
    have hst : strTruthy (some c) = true := by simp [strTruthy, hne]
    rw [hst] at hnf
    simp only [if_pos rfl, Bool.not_true, Bool.false_and] at hnf
    exact ⟨_, by simpa using hnf, by simp [appliedCast]⟩
  · intro hc hts
    subst hts
    rw [hc] at hnf
    simp [strTruthy] at hnf
    exact ⟨_, hnf, by simp [appliedCast]⟩
  · intro hc hts
    rw [hc] at hnf
    have hbe : (ty == ColType.Timestamp) = false := by simp [hts]
    simp [strTruthy, hts, hbe] at hnf
    exact ⟨_, hnf, by simp [appliedCast]⟩
  · intro e w hcomp
    rw [hnf] at hcomp
    injection hcomp with hcomp
    have hw : w = (!strTruthy gf.cast && !(ty == ColType.Timestamp)) :=
      (congrArg Prod.snd hcomp).symm
    subst hw
    constructor
    · intro hwt
      simp only [Bool.and_eq_true, Bool.not_eq_true', beq_eq_false_iff_ne] at hwt
      exact hwt
    · intro ⟨h1, h2⟩
      simp [h1, h2]

/-- A grouped field with no explicit cast over a non-temporal column,
instantiating the cast-precedence theorem. -/
def gfPlain : GroupedField := { field_name := "a", aliasName := none, cast := none }

/-- C4 witness: on the concrete int64 column `a` with no explicit cast,
compilation passes the column through uncast with the warning flag
set. -/
theorem grouped_field_compile_cast_precedence_witness :
    ∃ e, gfPlain.compile tableW = some (e, true) ∧ appliedCast e = none :=
  (grouped_field_compile_cast_precedence gfPlain tableW ColType.Int64 rfl).2.2.1 rfl
    (by decide)

/-- The synthetic whole-table count aggregate: alias `"count"`, type
`"count"`, no source and no target column. -/
def isWholeTableCountAgg (s : AggregateSpec) : Bool :=
  s.field_alias == "count" && s.agg_type == "count" &&
  s.source_column == none && s.target_column == none

/-- Every spec produced by `build_config_column_aggregates` names a
source column, so none of them is the whole-table count aggregate. -/
theorem colagg_countP_whole_table_zero (cm : ConfigManager) (agg_type : String)
    (arg_value : Option (List String)) (supported_types : List String) :
    (cm.build_config_column_aggregates agg_type arg_value supported_types).countP
      isWholeTableCountAgg = 0 := by
  rw [List.countP_eq_zero]
  intro a ha
  unfold ConfigManager.build_config_column_aggregates at ha
  simp only [List.mem_filterMap] at ha
  obtain ⟨c, hc, hf⟩ := ha
  cases hl : alookup cm.source_catalog c with
  | none => rw [hl] at hf; exact absurd hf (by simp)
  | some ty =>
      rw [hl] at hf
      dsimp only at hf
      by_cases hsup : (supported_types.isEmpty || supported_types.contains ty) = true
      · rw [if_pos hsup] at hf
        have ha := Option.some.inj hf
        rw [← ha]
        simp [isWholeTableCountAgg]
      · rw [if_neg hsup] at hf
        exact absurd hf (by simp)

/-- C1.  For a Column/GroupedColumn validation, the aggregate list built
from the user arguments contains exactly one whole-table count aggregate
— alias `"count"`, type `"count"`, no source or target column —
regardless of which aggregates were requested. -/
theorem get_aggregate_config_unique_whole_table_count (args : Args) (cm : ConfigManager)
    (_hkind : cm.validation_type = "Column" ∨ cm.validation_type = "GroupedColumn") :
    (get_aggregate_config args cm).countP isWholeTableCountAgg = 1 := by
  have hone : isWholeTableCountAgg cm.build_config_count_aggregate = true := rfl
  obtain ⟨co, su, av, mi, ma, gc, pk⟩ := args
  cases co <;> cases su <;> cases av <;> cases mi <;> cases ma <;>
    simp [get_aggregate_config, List.countP_append, List.countP_cons, List.countP_nil,
      colagg_countP_whole_table_zero, hone]

/-- CLI arguments requesting a sum over column `a` (and nothing else). -/
def argsSumA : Args :=
  { count := none, sum := some (ColArg.cols ["a"]), avg := none, min := none,
    max := none, grouped_columns := none, primary_keys := none }

/-- C1 witness: on the concrete Column-kind config and a requested sum
aggregate, the built aggregate list holds exactly one whole-table count
aggregate. -/
theorem get_aggregate_config_unique_whole_table_count_witness :
    (get_aggregate_config argsSumA cmIntCatalog).countP isWholeTableCountAgg = 1 :=
  get_aggregate_config_unique_whole_table_count argsSumA cmIntCatalog (Or.inl rfl)

/-- A key found among a mapping's keys always resolves. -/
theorem alookup_isSome_of_mem_keys {κ α : Type} [DecidableEq κ]
    (m : List (κ × α)) (k : κ) (hk : k ∈ m.map Prod.fst) :
    (alookup m k).isSome = true := by
  induction m with
  | nil => simp at hk
  | cons p rest ih =>
      cases p with
      | mk k0 v0 =>
          simp only [List.map_cons, List.mem_cons] at hk
          by_cases h : k0 = k
          · simp [alookup, h]
          · rcases hk with hk | hk
            · exact absurd hk.symm h
            · simp only [alookup, if_neg h]
              exact ih hk

/-- Comparing a row with itself yields an exact zero-difference match for
every alias. -/
theorem compareRow_self_all_zero (aliases : List String) (k : List (Option Int))
    (r : ResultRow) : (compareRow aliases 0 k r r).all isZeroMatch = true := by
  rw [List.all_eq_true]
  intro res hres
  rw [compareRow, List.mem_map] at hres
  obtain ⟨a, ha, rfl⟩ := hres
  simp [isZeroMatch]

/-- Reconciling any key list against one and the same mapping on both
sides yields only exact matches, provided every key resolves. -/
theorem reconcileKeys_self_all_zero (aliases : List String)
    (m : List (List (Option Int) × ResultRow)) (ks : List (List (Option Int)))
    (hks : ∀ k ∈ ks, (alookup m k).isSome = true) :
    (reconcileKeys aliases 0 m m ks).all isZeroMatch = true := by
  induction ks with
  | nil => rfl
  | cons k rest ih =>
      rw [reconcileKeys, List.all_append, Bool.and_eq_true]
      have hk := hks k (by simp)
      obtain ⟨r, hr⟩ := Option.isSome_iff_exists.mp hk
      constructor
      · rw [reconcileOne, hr]
        exact compareRow_self_all_zero aliases k r
      · exact ih fun k2 hk2 => hks k2 (by simp [hk2])

/-- When source and target mappings coincide, no key is target-only. -/
theorem filter_keys_isNone_self (m : List (List (Option Int) × ResultRow)) :
    (m.map Prod.fst).filter (fun k => (alookup m k).isNone) = [] := by
  rw [List.filter_eq_nil_iff]
  intro k hk
  have h := alookup_isSome_of_mem_keys m k hk
  cases halo : alookup m k with
  | none => rw [halo] at h; simp at h
  | some r => simp [halo]

/-- C7.  Reconciler idempotence: reconciling a row set against itself
(threshold defaulted to zero, no implicit tolerance) yields verdict
`matched` with a difference of exactly zero for every group and every
aggregate alias. -/
theorem reconcile_equal_row_sets_all_match (R : List ResultRow) (keys aliases : List String) :
    (reconcile R R keys aliases).all isZeroMatch = true := by
  show (reconcileKeys aliases 0 (buildKeyMap keys R) (buildKeyMap keys R)
      (((buildKeyMap keys R).map Prod.fst) ++
        (((buildKeyMap keys R).map Prod.fst).filter
          (fun k => (alookup (buildKeyMap keys R) k).isNone)))).all isZeroMatch = true
  rw [filter_keys_isNone_self, List.append_nil]
  exact reconcileKeys_self_all_zero aliases _ _
    (fun k hk => alookup_isSome_of_mem_keys _ k hk)

end DataValidation
